import Mathlib

/-!
Shallow embedding of the Unlisted Edge AI service (`src/ai-service/app.py`).

Modelling conventions:
* Python floats are idealised as rationals (`ℚ`); none of the verified
  properties depends on binary rounding of IEEE doubles.
* Randomness is passed explicitly: each call receives the outcomes of the
  random draws it consumes (the normal deviate for the confidence base, a
  seed stream driving `np.random.choice`, the `np.random.randint` outcomes,
  the generated UUID and the current timestamp).
* `np.random.randint(lo, hi)` has the half-open support lo ≤ x < hi (upper
  bound exclusive); this is captured by `randint_support` and `Draw.Valid`.
* A JSON field value is classified by whether Python `float()` succeeds on
  it (`RawValue.num q` when it coerces to the number `q`, `RawValue.invalid`
  when `float()` raises, e.g. a non-numeric string).
* Exceptions caught by the `try`/`except` blocks are modelled with
  `Option`/explicit result types: `100 / price` raises `ZeroDivisionError`
  exactly when `price = 0`, so `_analyze_company_fundamentals` returns
  `none` in that case and a value otherwise.
-/

namespace UnlistedEdge

/-- Truncation toward zero: the behaviour of Python `int()` on a float. -/
def pyInt (q : ℚ) : ℤ :=
if 0 ≤ q then ⌊q⌋ else ⌈q⌉

/-- Python `dict.get(key, dflt)` over a literal table of string keys. -/
def dictGet {α : Type} (table : List (String × α)) (key : String) (dflt : α) : α :=
match table with
| [] => dflt
| (k, v) :: rest => if key = k then v else dictGet rest key dflt

/-- One entry of the `sector_weights` table (app.py lines 76-83). -/
structure SectorWeights where
  growth : ℚ
  stability : ℚ
  risk : ℚ
deriving DecidableEq

/-- The `sector_weights` dict literal of `_analyze_company_fundamentals`. -/
def sector_weights : List (String × SectorWeights) :=
[("Technology", ⟨8/10, 6/10, 7/10⟩),
 ("Healthcare", ⟨7/10, 8/10, 5/10⟩),
 ("Finance", ⟨6/10, 9/10, 6/10⟩),
 ("Education", ⟨7/10, 7/10, 6/10⟩),
 ("E-commerce", ⟨9/10, 5/10, 8/10⟩),
 ("default", ⟨6/10, 7/10, 6/10⟩)]

/-- The value stored under the key "default" in `sector_weights`. -/
def default_weights : SectorWeights := ⟨6/10, 7/10, 6/10⟩

/-- The lookup `sector_weights.get` with the default entry as fallback (app.py line 85). -/
def weightsFor (sector : String) : SectorWeights :=
dictGet sector_weights sector default_weights

/-- The `factor_pools` dict literal of `_generate_key_factors` (lines 141-177). -/
def factor_pools : List (String × List String) :=
[("Technology",
  ["Strong innovation pipeline and R&D investment",
   "Market leadership in emerging technologies",
   "Scalable business model with network effects",
   "High customer retention and engagement metrics",
   "Competitive moat through proprietary technology"]),
 ("Healthcare",
  ["Robust clinical trial pipeline",
   "Regulatory approval momentum",
   "Strong intellectual property portfolio",
   "Growing addressable market size",
   "Strategic partnerships with healthcare providers"]),
 ("Finance",
  ["Strong capital adequacy ratios",
   "Diversified revenue streams",
   "Digital transformation progress",
   "Regulatory compliance excellence",
   "Market share expansion in key segments"]),
 ("Education",
  ["Growing digital adoption trends",
   "Strong brand recognition and trust",
   "Scalable online delivery platform",
   "International expansion opportunities",
   "Government policy support for education"]),
 ("default",
  ["Strong market position in sector",
   "Consistent revenue growth trajectory",
   "Effective cost management strategies",
   "Experienced management team",
   "Favorable industry dynamics"])]

/-- The value stored under the key "default" in `factor_pools`. -/
def default_pool : List String :=
["Strong market position in sector",
 "Consistent revenue growth trajectory",
 "Effective cost management strategies",
 "Experienced management team",
 "Favorable industry dynamics"]

/-- The lookup `factor_pools.get` with the default entry as fallback (app.py line 179). -/
def poolFor (sector : String) : List String :=
dictGet factor_pools sector default_pool

/-- Sampling without replacement, modelling
`np.random.choice(factors, size=k, replace=False)` (app.py line 182): at each
step the seed stream picks one of the remaining elements, which is removed
before the next step. Any outcome of the numpy draw is realised by some seed
stream. -/
def sampleNoReplace : ℕ → List ℕ → List String → List String
| 0, _, _ => []
| _ + 1, _, [] => []
| k + 1, seeds, pool =>
    let i := seeds.headD 0 % pool.length
    pool.getD i "" :: sampleNoReplace k seeds.tail (pool.eraseIdx i)

/-- `_generate_key_factors(sector, weights, price)` (app.py lines 138-184);
the `weights` and `price` parameters are unused by the Python body, so they
are dropped here. The random draw is the `seeds` stream. -/
def generate_key_factors (seeds : List ℕ) (sector : String) : List String :=
sampleNoReplace (min 5 (poolFor sector).length) seeds (poolFor sector)

/-- Support of `np.random.randint(lo, hi)`: `lo` inclusive, `hi` exclusive. -/
def randint_support (lo hi x : ℤ) : Prop := lo ≤ x ∧ x < hi

instance (lo hi x : ℤ) : Decidable (randint_support lo hi x) :=
inferInstanceAs (Decidable (lo ≤ x ∧ x < hi))

/-- The random outcomes consumed by one `generate_company_insight` call. -/
structure Draw where
  base_confidence : ℚ
  factor_seeds : List ℕ
  data_points : ℤ
  processing_time : ℤ
  uuid : String
  now : String

/-- A draw is valid when its `randint` outcomes lie in the support of
`np.random.randint(500, 2000)` and `np.random.randint(150, 500)`. -/
def Draw.Valid (d : Draw) : Prop :=
randint_support 500 2000 d.data_points ∧ randint_support 150 500 d.processing_time

instance (d : Draw) : Decidable d.Valid :=
inferInstanceAs (Decidable (_ ∧ _))

/-- The `ai_metadata` sub-dict of an insight (app.py lines 130-135). -/
structure AIMetadata where
  model_version : String
  analysis_type : String
  data_points_analyzed : ℤ
  processing_time_ms : ℤ
deriving DecidableEq

/-- The insight dict returned by `_analyze_company_fundamentals` (lines 120-136). -/
structure CompanyInsight where
  id : String
  company_id : ℤ
  company_name : String
  symbol : String
  insight_text : String
  confidence_score : ℤ
  recommendation : String
  date_generated : String
  key_factors : List String
  ai_metadata : AIMetadata
deriving DecidableEq

/-- The recommendation if-chain of `_analyze_company_fundamentals`
(app.py lines 100-107), extracted as a function of the three scores. -/
def recommendation_for (confidence_score growth_score risk_score : ℚ) : String :=
if 80 < confidence_score ∧ 70 < growth_score then "BUY"
else if 65 < confidence_score ∧ risk_score < 60 then "HOLD"
else if 80 < risk_score then "SELL"
else "WATCH"

/-- The `insight_templates` dict lookup (app.py lines 110-115); total here on
every string, but only ever applied to the four recommendation values, for
which it agrees with the Python dict. -/
def insight_text_for (recommendation symbol sector : String) : String :=
if recommendation = "BUY" then
  symbol ++ " shows strong AI-analyzed fundamentals with high growth potential in the " ++ sector ++ " sector. Machine learning models indicate favorable market conditions and positive sentiment indicators."
else if recommendation = "HOLD" then
  symbol ++ " demonstrates stable performance metrics according to our AI analysis. The " ++ sector ++ " sector shows moderate growth with balanced risk-reward ratio suitable for long-term holding."
else if recommendation = "SELL" then
  "AI risk assessment for " ++ symbol ++ " indicates elevated volatility in the " ++ sector ++ " sector. Predictive models suggest potential downward pressure with increased market uncertainty."
else
  symbol ++ " presents mixed signals in our AI analysis. The " ++ sector ++ " sector requires careful monitoring as machine learning models show conflicting trend indicators."

/-- The clamped confidence value of app.py lines 88-94 (before `int()`). -/
def confidence_raw (base stability price : ℚ) : ℚ :=
max 50 (min 95 (base + stability * 10 + min 10 (100 / price) * 5))

/-- `_analyze_company_fundamentals(company_id, symbol, price, sector)`
(app.py lines 72-136). Returns `none` exactly when the body raises, which
happens iff `100 / price` divides by zero, i.e. `price = 0`. -/
def analyze_company_fundamentals (d : Draw) (company_id : ℤ) (symbol : String)
    (price : ℚ) (sector : String) : Option CompanyInsight :=
if price = 0 then none
else
  let weights := weightsFor sector
  let confidence_score := confidence_raw d.base_confidence weights.stability price
  let growth_score := weights.growth * 100
  let risk_score := weights.risk * 100
  let recommendation := recommendation_for confidence_score growth_score risk_score
  some
    { id := d.uuid
      company_id := company_id
      company_name := symbol ++ " Analysis"
      symbol := symbol
      insight_text := insight_text_for recommendation symbol sector
      confidence_score := pyInt confidence_score
      recommendation := recommendation
      date_generated := d.now
      key_factors := generate_key_factors d.factor_seeds sector
      ai_metadata :=
        { model_version := "2.1.0"
          analysis_type := "fundamental_technical_hybrid"
          data_points_analyzed := d.data_points
          processing_time_ms := d.processing_time } }

/-- A JSON value appearing as the `current_price` field, classified by
whether Python `float()` succeeds on it. -/
inductive RawValue where
| num (value : ℚ)
| invalid (repr : String)
deriving DecidableEq

/-- `float(v)`: succeeds returning the number, or raises (`none`). -/
def coerceFloat : RawValue → Option ℚ
| .num v => some v
| .invalid _ => none

/-- The request body dict for `/ai/insight` (fields absent = `none`). -/
structure CompanyData where
  id : Option ℤ
  symbol : Option String
  current_price : Option RawValue
  sector : Option String
deriving DecidableEq

/-- Result of `generate_company_insight`: the dict carrying success=True and
the insight, or success=False and an error message (app.py lines 60-70). -/
inductive EngineResult where
| success (insight : CompanyInsight)
| failure (error : String)
deriving DecidableEq

/-- Whether an `EngineResult` carries success=True. -/
def EngineResult.isSuccess : EngineResult → Bool
| .success _ => true
| .failure _ => false

/-- The insight of a successful result, `none` on failure. -/
def EngineResult.toOption : EngineResult → Option CompanyInsight
| .success i => some i
| .failure _ => none

/-- `AIInsightEngine.generate_company_insight(company_data)` (app.py lines
47-70): substitutes defaults for missing fields, coerces `current_price`
with `float()`, runs the analysis, and converts any raised exception into an
explicit failure record. -/
def generate_company_insight (d : Draw) (cd : CompanyData) : EngineResult :=
match coerceFloat (cd.current_price.getD (.num 100)) with
| none => .failure "could not convert value to float"
| some price =>
  match analyze_company_fundamentals d (cd.id.getD 1) (cd.symbol.getD "UNKNOWN")
      price (cd.sector.getD "Technology") with
  | none => .failure "float division by zero"
  | some insight => .success insight

/-- HTTP outcome of `POST /ai/insight` (app.py lines 199-224):
`ok` is a 200 with the insight JSON, `badRequest` a 400, `serverError` a 500. -/
inductive InsightResponse where
| ok (insight : CompanyInsight)
| badRequest (error : String)
| serverError (error : String)
deriving DecidableEq

/-- The `/ai/insight` handler: `none` body models a missing/empty JSON body. -/
def generate_insight (d : Draw) (body : Option CompanyData) : InsightResponse :=
match body with
| none => .badRequest "No company data provided"
| some cd =>
  match generate_company_insight d cd with
  | .success i => .ok i
  | .failure e => .serverError e

/-- HTTP outcome of `POST /ai/batch-analysis` (app.py lines 226-255):
`ok insights processed_count` is the 200 response body. -/
inductive BatchResponse where
| ok (insights : List CompanyInsight) (processed_count : ℕ)
| badRequest (error : String)
deriving DecidableEq

/-- The `/ai/batch-analysis` handler: each company consumes its own draw
(indexed by position); failed items are skipped, successes are appended. -/
def batch_analysis (draws : ℕ → Draw) (companies : List CompanyData) : BatchResponse :=
if companies.isEmpty then .badRequest "No companies provided"
else
  let results := companies.enum.filterMap fun p =>
    (generate_company_insight (draws p.1) p.2).toOption
  .ok results results.length

/-- Round-half-to-even to an integer: Python `round()` tie behaviour. -/
def roundHalfEven (q : ℚ) : ℤ :=
if q - ⌊q⌋ < 1/2 then ⌊q⌋
else if 1/2 < q - ⌊q⌋ then ⌊q⌋ + 1
else if ⌊q⌋ % 2 = 0 then ⌊q⌋ else ⌊q⌋ + 1

/-- Python `round(x, 3)`. -/
def round3 (q : ℚ) : ℚ := (roundHalfEven (q * 1000) : ℚ) / 1000

/-- The response body of `GET /ai/market-sentiment` (app.py lines 275-288). -/
structure SentimentReading where
  sentiment : String
  score : ℚ
  description : String
  confidence : ℤ
  timestamp : String
  factors : List String
deriving DecidableEq

/-- `market_sentiment()` (app.py lines 257-294); `draw` is the outcome of
`np.random.normal(0.6, 0.2)` and `confidence` that of
`np.random.randint(70, 95)`. -/
def market_sentiment (draw : ℚ) (confidence : ℤ) (now : String) : SentimentReading :=
let sentiment_score := max (-1) (min 1 draw)
let sd : String × String :=
  if 3/10 < sentiment_score then
    ("Bullish", "AI models indicate positive market momentum with strong investor confidence")
  else if -(3/10) < sentiment_score then
    ("Neutral", "Market shows balanced sentiment with mixed signals from AI indicators")
  else
    ("Bearish", "AI analysis suggests cautious market conditions with risk-off sentiment")
{ sentiment := sd.1
  score := round3 sentiment_score
  description := sd.2
  confidence := confidence
  timestamp := now
  factors :=
    ["Technical indicator analysis",
     "News sentiment processing",
     "Trading volume patterns",
     "Sector rotation analysis",
     "Global market correlation"] }

/-! ### Supporting lemmas -/

theorem pyInt_of_nonneg {q : ℚ} (h : 0 ≤ q) : pyInt q = ⌊q⌋ := if_pos h

theorem dictGet_cases {α : Type} (P : α → Prop) (table : List (String × α)) (key : String)
    (dflt : α) (hd : P dflt) (ht : ∀ v ∈ table.map Prod.snd, P v) :
    P (dictGet table key dflt) := by
  induction table with
  | nil => exact hd
  | cons kv rest ih =>
    obtain ⟨k, v⟩ := kv
    simp only [dictGet]
    split
    · exact ht v (by simp)
    · exact ih fun w hw => ht w (by simp only [List.map_cons, List.mem_cons]; exact Or.inr hw)

theorem confidence_raw_bounds (b s p : ℚ) :
    50 ≤ confidence_raw b s p ∧ confidence_raw b s p ≤ 95 :=
  ⟨le_max_left _ _, max_le (by norm_num) (min_le_left _ _)⟩

theorem pyInt_confidence_bounds (b s p : ℚ) :
    50 ≤ pyInt (confidence_raw b s p) ∧ pyInt (confidence_raw b s p) ≤ 95 := by
  obtain ⟨h50, h95⟩ := confidence_raw_bounds b s p
  rw [pyInt_of_nonneg (le_trans (by norm_num) h50)]
  constructor
  · exact Int.le_floor.mpr (by exact_mod_cast h50)
  · calc ⌊confidence_raw b s p⌋ ≤ ⌊(95 : ℚ)⌋ := Int.floor_le_floor h95
      _ = 95 := by norm_num

theorem analyze_some_fields (d : Draw) (company_id : ℤ) (symbol sector : String) (price : ℚ)
    (ins : CompanyInsight)
    (h : analyze_company_fundamentals d company_id symbol price sector = some ins) :
    ins.confidence_score
        = pyInt (confidence_raw d.base_confidence (weightsFor sector).stability price) ∧
    ins.recommendation
        = recommendation_for
            (confidence_raw d.base_confidence (weightsFor sector).stability price)
            ((weightsFor sector).growth * 100) ((weightsFor sector).risk * 100) ∧
    ins.key_factors = generate_key_factors d.factor_seeds sector ∧
    ins.ai_metadata.data_points_analyzed = d.data_points ∧
    ins.ai_metadata.processing_time_ms = d.processing_time := by
  rw [analyze_company_fundamentals] at h
  by_cases hp : price = 0
  · rw [if_pos hp] at h
    exact Option.noConfusion h
  · rw [if_neg hp] at h
    injection h with h
    subst h
    exact ⟨rfl, rfl, rfl, rfl, rfl⟩

theorem generate_success_elim (d : Draw) (cd : CompanyData) (ins : CompanyInsight)
    (h : generate_company_insight d cd = .success ins) :
    ∃ price, coerceFloat (cd.current_price.getD (.num 100)) = some price ∧
      analyze_company_fundamentals d (cd.id.getD 1) (cd.symbol.getD "UNKNOWN") price
        (cd.sector.getD "Technology") = some ins := by
  cases hv : coerceFloat (cd.current_price.getD (.num 100)) with
  | none =>
    simp only [generate_company_insight, hv] at h
    exact EngineResult.noConfusion h
  | some price =>
    simp only [generate_company_insight, hv] at h
    cases ha : analyze_company_fundamentals d (cd.id.getD 1) (cd.symbol.getD "UNKNOWN") price
        (cd.sector.getD "Technology") with
    | none =>
      simp only [ha] at h
      exact EngineResult.noConfusion h
    | some i =>
      simp only [ha, EngineResult.success.injEq] at h
      exact ⟨price, rfl, by rw [ha, h]⟩

theorem getElem_not_mem_eraseIdx :
    ∀ (l : List String) (i : ℕ) (hi : i < l.length), l.Nodup → l[i] ∉ l.eraseIdx i
  | a :: t, 0, _, hnd => by
    simpa using (List.nodup_cons.mp hnd).1
  | a :: t, i + 1, hi, hnd => by
    obtain ⟨ha, ht⟩ := List.nodup_cons.mp hnd
    have hi' : i < t.length := by simpa using hi
    have h1 : t[i] ≠ a := fun he => ha (he ▸ List.getElem_mem hi')
    have h2 : t[i] ∉ t.eraseIdx i := getElem_not_mem_eraseIdx t i hi' ht
    simp only [List.eraseIdx_cons_succ, List.getElem_cons_succ, List.mem_cons, not_or]
    exact ⟨h1, h2⟩

theorem sampleNoReplace_length :
    ∀ (k : ℕ) (seeds : List ℕ) (pool : List String), k ≤ pool.length →
      (sampleNoReplace k seeds pool).length = k
  | 0, _, _, _ => rfl
  | _ + 1, _, [], h => absurd h (by simp)
  | k + 1, seeds, a :: t, h => by
    have hi : seeds.headD 0 % (a :: t).length < (a :: t).length :=
      Nat.mod_lt _ (Nat.succ_pos _)
    have he : ((a :: t).eraseIdx (seeds.headD 0 % (a :: t).length)).length + 1
        = (a :: t).length := List.length_eraseIdx_add_one hi
    have hk : k ≤ ((a :: t).eraseIdx (seeds.headD 0 % (a :: t).length)).length := by
      omega
    simp only [sampleNoReplace]
    rw [List.length_cons, sampleNoReplace_length k seeds.tail _ hk]

theorem sampleNoReplace_subset :
    ∀ (k : ℕ) (seeds : List ℕ) (pool : List String) (x : String),
      x ∈ sampleNoReplace k seeds pool → x ∈ pool
  | 0, _, _, _, hx => by simp [sampleNoReplace] at hx
  | _ + 1, _, [], _, hx => by simp [sampleNoReplace] at hx
  | k + 1, seeds, a :: t, x, hx => by
    have hi : seeds.headD 0 % (a :: t).length < (a :: t).length :=
      Nat.mod_lt _ (Nat.succ_pos _)
    simp only [sampleNoReplace, List.mem_cons] at hx
    rcases hx with hx | hx
    · rw [hx, List.getD_eq_getElem _ _ hi]
      exact List.getElem_mem hi
    · exact (List.eraseIdx_sublist _ _).subset
        (sampleNoReplace_subset k seeds.tail _ x hx)

theorem sampleNoReplace_nodup :
    ∀ (k : ℕ) (seeds : List ℕ) (pool : List String), pool.Nodup →
      (sampleNoReplace k seeds pool).Nodup
  | 0, _, _, _ => List.nodup_nil
  | _ + 1, _, [], _ => List.nodup_nil
  | k + 1, seeds, a :: t, hnd => by
    have hi : seeds.headD 0 % (a :: t).length < (a :: t).length :=
      Nat.mod_lt _ (Nat.succ_pos _)
    have hnd' : ((a :: t).eraseIdx (seeds.headD 0 % (a :: t).length)).Nodup :=
      List.Nodup.sublist (List.eraseIdx_sublist _ _) hnd
    simp only [sampleNoReplace, List.nodup_cons]
    refine ⟨fun hmem => ?_, sampleNoReplace_nodup k seeds.tail _ hnd'⟩
    have hmem' := sampleNoReplace_subset k seeds.tail _ _ hmem
    rw [List.getD_eq_getElem _ _ hi] at hmem'
    exact getElem_not_mem_eraseIdx _ _ hi hnd hmem'

theorem poolFor_nodup (sector : String) : (poolFor sector).Nodup := by
  refine dictGet_cases (fun pool => pool.Nodup) factor_pools sector default_pool (by decide) ?_
  intro v hv
  simp only [factor_pools, List.map_cons, List.map_nil, List.mem_cons,
    List.not_mem_nil, or_false] at hv
  rcases hv with rfl | rfl | rfl | rfl | rfl <;> decide

theorem weightsFor_risk_le (sector : String) : (weightsFor sector).risk ≤ 8/10 := by
  refine dictGet_cases (fun w => w.risk ≤ 8/10) sector_weights sector default_weights
    (by norm_num [default_weights]) ?_
  intro v hv
  simp only [sector_weights, List.map_cons, List.map_nil, List.mem_cons,
    List.not_mem_nil, or_false] at hv
  rcases hv with rfl | rfl | rfl | rfl | rfl | rfl <;> norm_num

theorem le_roundHalfEven {q : ℚ} {n : ℤ} (h : (n : ℚ) ≤ q) : n ≤ roundHalfEven q := by
  have hf : n ≤ ⌊q⌋ := Int.le_floor.mpr h
  unfold roundHalfEven
  split_ifs <;> omega

theorem roundHalfEven_le {q : ℚ} {n : ℤ} (h : q ≤ (n : ℚ)) : roundHalfEven q ≤ n := by
  have hf : ⌊q⌋ ≤ n := by simpa using Int.floor_le_floor h
  have hfq : (⌊q⌋ : ℚ) ≤ q := Int.floor_le q
  unfold roundHalfEven
  split_ifs with h1 h2
  · exact hf
  · have hlt : (⌊q⌋ : ℚ) < (n : ℚ) := by linarith
    have : ⌊q⌋ < n := by exact_mod_cast hlt
    omega
  · exact hf
  · have heq : q - ⌊q⌋ = 1/2 := le_antisymm (not_lt.mp h2) (not_lt.mp h1)
    have hlt : (⌊q⌋ : ℚ) < (n : ℚ) := by linarith
    have : ⌊q⌋ < n := by exact_mod_cast hlt
    omega

theorem round3_bounds {q : ℚ} (h1 : -1 ≤ q) (h2 : q ≤ 1) :
    -1 ≤ round3 q ∧ round3 q ≤ 1 := by
  have hu : roundHalfEven (q * 1000) ≤ (1000 : ℤ) := roundHalfEven_le (by push_cast; linarith)
  have hl : (-1000 : ℤ) ≤ roundHalfEven (q * 1000) := le_roundHalfEven (by push_cast; linarith)
  have hu' : ((roundHalfEven (q * 1000) : ℤ) : ℚ) ≤ 1000 := by exact_mod_cast hu
  have hl' : (-1000 : ℚ) ≤ ((roundHalfEven (q * 1000) : ℤ) : ℚ) := by exact_mod_cast hl
  unfold round3
  constructor
  · rw [le_div_iff₀ (by norm_num : (0 : ℚ) < 1000)]
    linarith
  · rw [div_le_iff₀ (by norm_num : (0 : ℚ) < 1000)]
    linarith

theorem market_sentiment_fields (draw : ℚ) (confidence : ℤ) (now : String) :
    (market_sentiment draw confidence now).score = round3 (max (-1) (min 1 draw)) ∧
    (market_sentiment draw confidence now).sentiment =
      (if 3/10 < max (-1) (min 1 draw) then "Bullish"
       else if -(3/10) < max (-1) (min 1 draw) then "Neutral" else "Bearish") ∧
    (market_sentiment draw confidence now).description =
      (if 3/10 < max (-1) (min 1 draw) then
        "AI models indicate positive market momentum with strong investor confidence"
       else if -(3/10) < max (-1) (min 1 draw) then
        "Market shows balanced sentiment with mixed signals from AI indicators"
       else "AI analysis suggests cautious market conditions with risk-off sentiment") ∧
    (market_sentiment draw confidence now).confidence = confidence := by
  simp only [market_sentiment]
  split_ifs <;> simp

/-! ### Concrete fixtures used by witnesses and counterexamples -/

/-- A fixture draw with in-range randint outcomes. -/
def dFix : Draw := ⟨75, [0, 1, 2, 3, 4], 1000, 300, "uuid-fixture", "2025-01-01T00:00:00"⟩

/-- A fixture draw whose base term pushes the confidence above 80. -/
def dBuyFix : Draw := ⟨90, [2, 0, 1, 0, 0], 1500, 200, "uuid-buy", "2025-01-01T00:00:01"⟩

/-- A well-formed Technology company request. -/
def cdTech : CompanyData := ⟨some 1, some "ACME", some (RawValue.num 120), some "Technology"⟩

/-- A request whose price is a non-numeric string. -/
def cdBadPrice : CompanyData :=
⟨some 2, some "BAD", some (RawValue.invalid "not-a-number"), some "Finance"⟩

/-- A request with a negative (but float-coercible) price. -/
def cdNegPrice : CompanyData := ⟨some 3, some "NEG", some (RawValue.num (-50)), some "Finance"⟩

/-- A request whose price is the number 0. -/
def cdZeroPrice : CompanyData := ⟨some 4, some "ZRO", some (RawValue.num 0), some "Technology"⟩

/-! ### Claims -/

/-- C1: for every draw of the normally-distributed base term and every valid
input (positive price), the analysis succeeds and the returned
confidence_score is an integer in [50, 95], equal to the truncation of
clamp(base + stability*10 + min(10, 100/price)*5, 50, 95), where stability
is the stability weight of the sector profile. -/
theorem C1_confidence_score (d : Draw) (company_id : ℤ) (symbol sector : String)
    (price : ℚ) (hp : 0 < price) :
    ∃ ins, analyze_company_fundamentals d company_id symbol price sector = some ins ∧
      ins.confidence_score =
        pyInt (max 50 (min 95 (d.base_confidence + (weightsFor sector).stability * 10 +
          min 10 (100 / price) * 5))) ∧
      50 ≤ ins.confidence_score ∧ ins.confidence_score ≤ 95 := by
  have hne : price ≠ 0 := ne_of_gt hp
  cases ha : analyze_company_fundamentals d company_id symbol price sector with
  | none =>
    rw [analyze_company_fundamentals, if_neg hne] at ha
    exact Option.noConfusion ha
  | some ins =>
    obtain ⟨hconf, -, -, -, -⟩ := analyze_some_fields d company_id symbol sector price ins ha
    obtain ⟨h50, h95⟩ :=
      pyInt_confidence_bounds d.base_confidence (weightsFor sector).stability price
    exact ⟨ins, rfl, by rw [hconf]; rfl, by rw [hconf]; exact h50, by rw [hconf]; exact h95⟩

/-- C1 witness: the theorem applied to a concrete draw and input. -/
theorem C1_confidence_score_witness :
    ∃ ins, analyze_company_fundamentals dFix 1 "ACME" 120 "Technology" = some ins ∧
      ins.confidence_score =
        pyInt (max 50 (min 95 (dFix.base_confidence + (weightsFor "Technology").stability * 10 +
          min 10 (100 / 120) * 5))) ∧
      50 ≤ ins.confidence_score ∧ ins.confidence_score ≤ 95 :=
  C1_confidence_score dFix 1 "ACME" "Technology" 120 (by decide)

/-- C2: the recommendation is the first matching rule of the ordered chain
BUY, HOLD, SELL, WATCH; in particular, whenever the returned integer
confidence score exceeds 80 and the growth score of the sector exceeds 70, the
recommendation is BUY regardless of the risk score. -/
theorem C2_recommendation_order :
    (∀ c g r : ℚ, recommendation_for c g r = "BUY" ↔ 80 < c ∧ 70 < g) ∧
    (∀ c g r : ℚ, recommendation_for c g r = "HOLD" ↔
      ¬(80 < c ∧ 70 < g) ∧ 65 < c ∧ r < 60) ∧
    (∀ c g r : ℚ, recommendation_for c g r = "SELL" ↔
      ¬(80 < c ∧ 70 < g) ∧ ¬(65 < c ∧ r < 60) ∧ 80 < r) ∧
    (∀ c g r : ℚ, recommendation_for c g r = "WATCH" ↔
      ¬(80 < c ∧ 70 < g) ∧ ¬(65 < c ∧ r < 60) ∧ ¬(80 < r)) ∧
    (∀ (d : Draw) (company_id : ℤ) (symbol sector : String) (price : ℚ)
        (ins : CompanyInsight),
      analyze_company_fundamentals d company_id symbol price sector = some ins →
      80 < ins.confidence_score → 70 < (weightsFor sector).growth * 100 →
      ins.recommendation = "BUY") := by
  refine ⟨?_, ?_, ?_, ?_, ?_⟩
  · intro c g r; unfold recommendation_for; split_ifs <;> simp_all
  · intro c g r; unfold recommendation_for; split_ifs <;> simp_all
  · intro c g r; unfold recommendation_for; split_ifs <;> simp_all
  · intro c g r; unfold recommendation_for; split_ifs <;> simp_all
  · intro d company_id symbol sector price ins ha hc hg
    obtain ⟨hconf, hrec, -, -, -⟩ := analyze_some_fields d company_id symbol sector price ins ha
    have h0 : (0 : ℚ) ≤ confidence_raw d.base_confidence (weightsFor sector).stability price :=
      le_trans (by norm_num) (confidence_raw_bounds _ _ _).1
    rw [hconf, pyInt_of_nonneg h0] at hc
    have hvc : (80 : ℚ) < confidence_raw d.base_confidence (weightsFor sector).stability price := by
      have hfl := Int.floor_le (confidence_raw d.base_confidence (weightsFor sector).stability price)
      have hcast : ((80 : ℤ) : ℚ) <
          ((⌊confidence_raw d.base_confidence (weightsFor sector).stability price⌋ : ℤ) : ℚ) := by
        exact_mod_cast hc
      push_cast at hcast
      linarith
    rw [hrec]
    unfold recommendation_for
    rw [if_pos ⟨hvc, hg⟩]

/-- C2 witness: a high-confidence, high-growth, high-risk instantiation is
classified BUY both abstractly and through the full analysis. -/
theorem C2_recommendation_order_witness :
    recommendation_for 90 80 99 = "BUY" ∧
    ∃ ins, analyze_company_fundamentals dBuyFix 1 "ACME" 100 "Technology" = some ins ∧
      ins.recommendation = "BUY" := by
  constructor
  · exact (C2_recommendation_order.1 90 80 99).mpr (by norm_num)
  · refine ⟨_, rfl, ?_⟩
    refine C2_recommendation_order.2.2.2.2 dBuyFix 1 "ACME" "Technology" 100 _ rfl ?_ ?_
    · norm_num [dBuyFix, pyInt, confidence_raw, weightsFor, dictGet, sector_weights,
        default_weights, max_def, min_def, Rat.floor_def]
    · norm_num [weightsFor, dictGet, sector_weights, default_weights]

/-- C3: the key_factors list of any returned insight has length
min(5, pool size), no duplicates, and all elements drawn from the
pool of the sector (the default pool when the sector is unrecognised). -/
theorem C3_key_factors (d : Draw) (company_id : ℤ) (symbol sector : String) (price : ℚ)
    (ins : CompanyInsight)
    (h : analyze_company_fundamentals d company_id symbol price sector = some ins) :
    ins.key_factors.length = min 5 (poolFor sector).length ∧
    ins.key_factors.Nodup ∧
    ∀ x ∈ ins.key_factors, x ∈ poolFor sector := by
  obtain ⟨-, -, hkf, -, -⟩ := analyze_some_fields d company_id symbol sector price ins h
  rw [hkf]
  unfold generate_key_factors
  exact ⟨sampleNoReplace_length _ _ _ (min_le_right 5 _),
    sampleNoReplace_nodup _ _ _ (poolFor_nodup sector),
    fun x hx => sampleNoReplace_subset _ _ _ x hx⟩

/-- C3 witness: the theorem applied to a concrete Healthcare request. -/
theorem C3_key_factors_witness :
    ∃ ins, analyze_company_fundamentals dFix 2 "ACME" 100 "Healthcare" = some ins ∧
      (ins.key_factors.length = min 5 (poolFor "Healthcare").length ∧
       ins.key_factors.Nodup ∧
       ∀ x ∈ ins.key_factors, x ∈ poolFor "Healthcare") :=
  ⟨_, rfl, C3_key_factors dFix 2 "ACME" "Healthcare" 100 _ rfl⟩

/-- C4 counterexample: for the draw 0.3004 the reading is labelled Bullish
while its returned (3-decimal-rounded) score is exactly 0.3, which is not
greater than 0.3, so the label is not "Bullish exactly when score > 0.3"
when "score" is the returned rounded score. -/
theorem C4_sentiment_counterexample :
    (market_sentiment (3004/10000) 80 "2025-01-01T00:00:02").sentiment = "Bullish" ∧
    (market_sentiment (3004/10000) 80 "2025-01-01T00:00:02").score = 3/10 ∧
    ¬ (3/10 < (market_sentiment (3004/10000) 80 "2025-01-01T00:00:02").score) := by
  norm_num [market_sentiment, round3, roundHalfEven, max_def, min_def, Rat.floor_def]

/-- C4 amended: the returned score is always in [-1, 1]; the label is decided
by the clamped (unrounded) draw: Bullish exactly when it exceeds 0.3, Neutral
exactly when it lies in (-0.3, 0.3], Bearish exactly otherwise; each label is
paired with its fixed description string. -/
theorem C4_market_sentiment (draw : ℚ) (confidence : ℤ) (now : String) :
    (-1 ≤ (market_sentiment draw confidence now).score ∧
      (market_sentiment draw confidence now).score ≤ 1) ∧
    ((market_sentiment draw confidence now).sentiment = "Bullish" ↔
      3/10 < max (-1) (min 1 draw)) ∧
    ((market_sentiment draw confidence now).sentiment = "Neutral" ↔
      (-(3/10) < max (-1) (min 1 draw) ∧ max (-1) (min 1 draw) ≤ 3/10)) ∧
    ((market_sentiment draw confidence now).sentiment = "Bearish" ↔
      max (-1) (min 1 draw) ≤ -(3/10)) ∧
    ((market_sentiment draw confidence now).sentiment = "Bullish" →
      (market_sentiment draw confidence now).description =
        "AI models indicate positive market momentum with strong investor confidence") ∧
    ((market_sentiment draw confidence now).sentiment = "Neutral" →
      (market_sentiment draw confidence now).description =
        "Market shows balanced sentiment with mixed signals from AI indicators") ∧
    ((market_sentiment draw confidence now).sentiment = "Bearish" →
      (market_sentiment draw confidence now).description =
        "AI analysis suggests cautious market conditions with risk-off sentiment") := by
  obtain ⟨hsc, hl, hdesc, -⟩ := market_sentiment_fields draw confidence now
  have hs1 : -1 ≤ max (-1) (min 1 draw) := le_max_left _ _
  have hs2 : max (-1) (min 1 draw) ≤ 1 := max_le (by norm_num) (min_le_left _ _)
  obtain ⟨hb1, hb2⟩ := round3_bounds hs1 hs2
  rw [hsc, hl, hdesc]
  have hBN : ("Bullish" : String) ≠ "Neutral" := by decide
  have hBB : ("Bullish" : String) ≠ "Bearish" := by decide
  have hNB : ("Neutral" : String) ≠ "Bullish" := by decide
  have hNBe : ("Neutral" : String) ≠ "Bearish" := by decide
  have hBeB : ("Bearish" : String) ≠ "Bullish" := by decide
  have hBeN : ("Bearish" : String) ≠ "Neutral" := by decide
  split_ifs with h1 h2
  · exact ⟨⟨hb1, hb2⟩, iff_of_true rfl h1,
      iff_of_false hBN (fun hcon => absurd h1 (not_lt.mpr hcon.2)),
      iff_of_false hBB (fun hcon => by linarith),
      fun _ => rfl, fun hcon => absurd hcon hBN, fun hcon => absurd hcon hBB⟩
  · exact ⟨⟨hb1, hb2⟩, iff_of_false hNB h1,
      iff_of_true rfl ⟨h2, not_lt.mp h1⟩,
      iff_of_false hNBe (fun hcon => by linarith),
      fun hcon => absurd hcon hNB, fun _ => rfl, fun hcon => absurd hcon hNBe⟩
  · exact ⟨⟨hb1, hb2⟩, iff_of_false hBeB h1,
      iff_of_false hBeN (fun hcon => absurd hcon.1 h2),
      iff_of_true rfl (not_lt.mp h2),
      fun hcon => absurd hcon hBeB, fun hcon => absurd hcon hBeN, fun _ => rfl⟩

/-- C4 witness: the amended classification evaluated at a concrete draw. -/
theorem C4_market_sentiment_witness :
    (-1 ≤ (market_sentiment (1/2) 80 "t").score ∧
      (market_sentiment (1/2) 80 "t").score ≤ 1) ∧
    (market_sentiment (1/2) 80 "t").sentiment = "Bullish" := by
  obtain ⟨hb, hl, -, -, -, -, -⟩ := C4_market_sentiment (1/2) 80 "t"
  exact ⟨hb, hl.mpr (by norm_num [max_def, min_def])⟩

/-- C5: batch analysis applies insight generation to each company
independently, silently drops per-item failures from the returned insights,
and reports processed_count = number of successful items. -/
theorem C5_batch (draws : ℕ → Draw) (companies : List CompanyData)
    (h : companies ≠ []) :
    batch_analysis draws companies =
      .ok (companies.enum.filterMap fun p =>
            (generate_company_insight (draws p.1) p.2).toOption)
        (companies.enum.countP fun p =>
          (generate_company_insight (draws p.1) p.2).isSuccess) := by
  have hne : ¬ (companies.isEmpty = true) := by simpa using h
  rw [batch_analysis, if_neg hne]
  dsimp only
  congr 1
  rw [List.length_filterMap_eq_countP]
  congr 1
  funext p
  cases generate_company_insight (draws p.1) p.2 <;>
    simp [EngineResult.toOption, EngineResult.isSuccess]

/-- C5 witness: a batch of 3 companies with one malformed price yields a
success response carrying 2 insights and processed_count = 2. -/
theorem C5_batch_witness :
    batch_analysis (fun _ => dFix) [cdTech, cdBadPrice, cdTech] =
      .ok ([cdTech, cdBadPrice, cdTech].enum.filterMap fun p =>
            (generate_company_insight ((fun _ => dFix) p.1) p.2).toOption)
        ([cdTech, cdBadPrice, cdTech].enum.countP fun p =>
          (generate_company_insight ((fun _ => dFix) p.1) p.2).isSuccess) ∧
    ([cdTech, cdBadPrice, cdTech].enum.countP fun p =>
        (generate_company_insight ((fun _ => dFix) p.1) p.2).isSuccess) = 2 ∧
    ([cdTech, cdBadPrice, cdTech].enum.filterMap fun p =>
        (generate_company_insight ((fun _ => dFix) p.1) p.2).toOption).length = 2 :=
  ⟨C5_batch (fun _ => dFix) _ (by simp), by rfl, by rfl⟩

/-- C6 counterexample: a company whose current_price is the float-coercible
negative number -50 is NOT rejected: the engine returns a success record,
refuting the claim that negative prices fail validation. -/
theorem C6_negative_price_counterexample :
    (generate_company_insight dFix cdNegPrice).isSuccess = true := by
  norm_num [generate_company_insight, coerceFloat, analyze_company_fundamentals,
    EngineResult.isSuccess, cdNegPrice, dFix]

/-- C6 amended: the engine always returns an explicit success or failure
record; it fails exactly when float() coercion of current_price is
impossible or the coerced price is zero; in particular every non-numeric
price is rejected with the coercion failure message. Negative prices are
accepted and produce an insight. -/
theorem C6_price_coercion (d : Draw) (cd : CompanyData) :
    ((generate_company_insight d cd).isSuccess = false ↔
      coerceFloat (cd.current_price.getD (.num 100)) = none ∨
      coerceFloat (cd.current_price.getD (.num 100)) = some 0) ∧
    (∀ s, cd.current_price = some (RawValue.invalid s) →
      generate_company_insight d cd = .failure "could not convert value to float") := by
  constructor
  · cases hv : coerceFloat (cd.current_price.getD (.num 100)) with
    | none => simp [generate_company_insight, hv, EngineResult.isSuccess]
    | some price =>
      by_cases hp : price = 0
      · subst hp
        simp [generate_company_insight, hv, analyze_company_fundamentals,
          EngineResult.isSuccess]
      · simp [generate_company_insight, hv, analyze_company_fundamentals, hp,
          EngineResult.isSuccess]
  · intro s hs
    simp [generate_company_insight, hs, coerceFloat]

/-- C6 witness: the amended characterisation evaluated on the non-numeric
price fixture. -/
theorem C6_price_coercion_witness :
    (generate_company_insight dFix cdBadPrice).isSuccess = false ∧
    generate_company_insight dFix cdBadPrice = .failure "could not convert value to float" :=
  ⟨((C6_price_coercion dFix cdBadPrice).1).mpr (Or.inl rfl),
   (C6_price_coercion dFix cdBadPrice).2 "not-a-number" rfl⟩

/-- C7 counterexample: np.random.randint upper bounds are exclusive, so no
valid draw ever yields data_points_analyzed = 2000, although the claim says
every value of the closed interval [500, 2000] is a possible outcome. -/
theorem C7_randint_counterexample :
    ¬ ∃ d : Draw, d.Valid ∧ d.data_points = 2000 := by
  rintro ⟨d, hv, he⟩
  obtain ⟨⟨h1, h2⟩, -⟩ :
      (500 ≤ d.data_points ∧ d.data_points < 2000) ∧
      (150 ≤ d.processing_time ∧ d.processing_time < 500) := hv
  omega

/-- C7 amended: data_points_analyzed ranges over [500, 1999] and
processing_time_ms over [150, 499]; the sentiment confidence over [70, 94];
every insight built from a valid draw carries values in those closed
intervals, and conversely every integer of each closed interval is in the
support of the corresponding randint call. -/
theorem C7_randint_ranges :
    (∀ (d : Draw), d.Valid → ∀ (cd : CompanyData) (ins : CompanyInsight),
      generate_company_insight d cd = .success ins →
      (500 ≤ ins.ai_metadata.data_points_analyzed ∧
        ins.ai_metadata.data_points_analyzed ≤ 1999) ∧
      (150 ≤ ins.ai_metadata.processing_time_ms ∧
        ins.ai_metadata.processing_time_ms ≤ 499)) ∧
    (∀ x : ℤ, randint_support 500 2000 x ↔ 500 ≤ x ∧ x ≤ 1999) ∧
    (∀ x : ℤ, randint_support 150 500 x ↔ 150 ≤ x ∧ x ≤ 499) ∧
    (∀ x : ℤ, randint_support 70 95 x ↔ 70 ≤ x ∧ x ≤ 94) := by
  refine ⟨?_, ?_, ?_, ?_⟩
  · intro d hd cd ins h
    obtain ⟨price, -, ha⟩ := generate_success_elim d cd ins h
    obtain ⟨-, -, -, hdp, hpt⟩ := analyze_some_fields d _ _ _ price ins ha
    obtain ⟨⟨h1, h2⟩, h3, h4⟩ :
        (500 ≤ d.data_points ∧ d.data_points < 2000) ∧
        (150 ≤ d.processing_time ∧ d.processing_time < 500) := hd
    rw [hdp, hpt]
    omega
  · intro x; unfold randint_support; omega
  · intro x; unfold randint_support; omega
  · intro x; unfold randint_support; omega

/-- C7 witness: the amended range facts instantiated on a concrete valid
draw and request. -/
theorem C7_randint_ranges_witness :
    dFix.Valid ∧
    ∃ ins, generate_company_insight dFix cdTech = .success ins ∧
      (500 ≤ ins.ai_metadata.data_points_analyzed ∧
        ins.ai_metadata.data_points_analyzed ≤ 1999) ∧
      (150 ≤ ins.ai_metadata.processing_time_ms ∧
        ins.ai_metadata.processing_time_ms ≤ 499) :=
  ⟨by decide, _, rfl, C7_randint_ranges.1 dFix (by decide) cdTech _ rfl⟩

/-- C8: an unrecognised sector string falls back to the default profile and
the default factor pool, and the lookup is total: the analysis succeeds for
any sector string whenever the price is nonzero. -/
theorem C8_unknown_sector (sector : String)
    (h : sector ∉ ["Technology", "Healthcare", "Finance", "Education", "E-commerce"]) :
    weightsFor sector = default_weights ∧ poolFor sector = default_pool ∧
    ∀ (d : Draw) (company_id : ℤ) (symbol : String) (price : ℚ), price ≠ 0 →
      ∃ ins, analyze_company_fundamentals d company_id symbol price sector = some ins := by
  simp only [List.mem_cons, List.not_mem_nil, or_false, not_or] at h
  obtain ⟨h1, h2, h3, h4, h5⟩ := h
  refine ⟨?_, ?_, ?_⟩
  · simp only [weightsFor, sector_weights, dictGet, if_neg h1, if_neg h2, if_neg h3,
      if_neg h4, if_neg h5]
    split_ifs <;> rfl
  · simp only [poolFor, factor_pools, dictGet, if_neg h1, if_neg h2, if_neg h3,
      if_neg h4, if_neg h5]
    split_ifs <;> rfl
  · intro d company_id symbol price hp
    exact ⟨_, by rw [analyze_company_fundamentals, if_neg hp]⟩

/-- C8 witness: the unknown-sector fixture "Unknown-Sector-XYZ". -/
theorem C8_unknown_sector_witness :
    weightsFor "Unknown-Sector-XYZ" = default_weights ∧
    poolFor "Unknown-Sector-XYZ" = default_pool ∧
    ∃ ins, analyze_company_fundamentals dFix 5 "UNK" 100 "Unknown-Sector-XYZ" = some ins := by
  obtain ⟨hw, hp, htot⟩ := C8_unknown_sector "Unknown-Sector-XYZ" (by decide)
  exact ⟨hw, hp, htot dFix 5 "UNK" 100 (by decide)⟩

/-- C9: no sector profile (including the default) has risk above 0.8, so
risk_score > 80 never holds, the SELL branch is unreachable, and every
returned recommendation is BUY, HOLD or WATCH. -/
theorem C9_sell_unreachable :
    (∀ w ∈ sector_weights.map Prod.snd, w.risk ≤ 8/10) ∧
    default_weights.risk ≤ 8/10 ∧
    ∀ (d : Draw) (company_id : ℤ) (symbol sector : String) (price : ℚ)
        (ins : CompanyInsight),
      analyze_company_fundamentals d company_id symbol price sector = some ins →
      ins.recommendation = "BUY" ∨ ins.recommendation = "HOLD" ∨
        ins.recommendation = "WATCH" := by
  refine ⟨?_, by norm_num [default_weights], ?_⟩
  · intro w hw
    simp only [sector_weights, List.map_cons, List.map_nil, List.mem_cons,
      List.not_mem_nil, or_false] at hw
    rcases hw with rfl | rfl | rfl | rfl | rfl | rfl <;> norm_num
  · intro d company_id symbol sector price ins ha
    obtain ⟨-, hrec, -, -, -⟩ := analyze_some_fields d company_id symbol sector price ins ha
    have hrisk : (weightsFor sector).risk ≤ 8/10 := weightsFor_risk_le sector
    rw [hrec]
    unfold recommendation_for
    split_ifs with hb hh hs
    · exact Or.inl rfl
    · exact Or.inr (Or.inl rfl)
    · exact absurd hs (by push_neg; linarith)
    · exact Or.inr (Or.inr rfl)

/-- C9 witness: the highest-risk sector (E-commerce, risk 0.8) still cannot
produce SELL. -/
theorem C9_sell_unreachable_witness :
    ∃ ins, analyze_company_fundamentals dFix 6 "ECOM" 100 "E-commerce" = some ins ∧
      (ins.recommendation = "BUY" ∨ ins.recommendation = "HOLD" ∨
        ins.recommendation = "WATCH") :=
  ⟨_, rfl, C9_sell_unreachable.2.2 dFix 6 "ECOM" "E-commerce" 100 _ rfl⟩

/-- C10: a coercible price of exactly 0 fails inside the engine (the
division 100/price raises, the engine catches it and returns a failure
record), the /ai/insight endpoint answers with the 500 serverError path,
and batch analysis silently drops the item. -/
theorem C10_zero_price (d : Draw) (cd : CompanyData)
    (h : cd.current_price = some (RawValue.num 0)) :
    generate_company_insight d cd = .failure "float division by zero" ∧
    generate_insight d (some cd) = .serverError "float division by zero" ∧
    ∀ draws : ℕ → Draw, batch_analysis draws [cd] = .ok [] 0 := by
  have hgen : ∀ d' : Draw,
      generate_company_insight d' cd = .failure "float division by zero" := by
    intro d'
    simp [generate_company_insight, h, coerceFloat, analyze_company_fundamentals]
  refine ⟨hgen d, ?_, ?_⟩
  · simp only [generate_insight, hgen d]
  · intro draws
    rw [batch_analysis, if_neg (by simp)]
    simp [List.enum, List.enumFrom, hgen (draws 0), EngineResult.toOption]

/-- C10 witness: the zero-price fixture. -/
theorem C10_zero_price_witness :
    generate_company_insight dFix cdZeroPrice = .failure "float division by zero" ∧
    generate_insight dFix (some cdZeroPrice) = .serverError "float division by zero" ∧
    batch_analysis (fun _ => dFix) [cdZeroPrice] = .ok [] 0 := by
  obtain ⟨h1, h2, h3⟩ := C10_zero_price dFix cdZeroPrice rfl
  exact ⟨h1, h2, h3 _⟩

end UnlistedEdge
